import Mathlib

/-! Formalisation of the experiment-config service: the in-memory
service/replica configuration registry (configuration.service.ts,
configuration.repository.ts, configuration.controller.ts) and the event
layer (events.service.ts).  JavaScript arrays holding configuration
variables are mutable objects that can be shared by reference, and
several properties below hinge on exactly that sharing, so variable
arrays live in an explicit heap (`cells`) and records hold references
(`ArrayRef`) into it.  Thrown exceptions are modelled with `Except`;
in every operation below the TypeScript code throws before its first
mutation, so no partially-mutated state needs to be represented. -/

deriving instance DecidableEq for Except

/-- Runtime value of a configuration variable (TypeScript `any`),
restricted to a JSON-like universe; the registry never inspects values. -/
inductive JsValue where
  | vStr : String → JsValue
  | vInt : Int → JsValue
  | vBool : Bool → JsValue
  | vNull : JsValue
deriving DecidableEq

/-- Modelled from the spec: entities/service-configuration.entity.ts is not
among the sources; the shape follows the design document and every use in
configuration.service.ts.  One runtime-configurable setting. -/
structure ConfigurationVariable where
  key : String
  value : JsValue
deriving DecidableEq

/-- Modelled from the spec: declared type (an opaque JSON schema here)
for a configuration key. -/
structure ConfigurationVariableDefinition where
  key : String
  type : JsValue
deriving DecidableEq

/-- Reference to one mutable JavaScript array of configuration variables. -/
abbrev ArrayRef := Nat

/-- Modelled from the spec: one running instance of a service.  Its
`replicaVariables` field holds a reference to an array in the heap,
mirroring the JavaScript object reference. -/
structure ServiceReplica where
  id : String
  replicaVariables : ArrayRef
  lastSeen : Option Nat
deriving DecidableEq

/-- Modelled from the spec: configuration record of one service;
`globalVariables` is a reference into the heap of variable arrays. -/
structure ServiceConfiguration where
  name : String
  replicas : List ServiceReplica
  globalVariables : ArrayRef
  variableDefinitions : List ConfigurationVariableDefinition
deriving DecidableEq

/-- Event handed to EventPublisherService.publishEvent in
events.service.ts: pubsub component name, topic, and the payload of
per-replica flattened variable maps. -/
structure PublishedEvent where
  pubsubName : String
  topic : String
  payload : List (String × List (String × JsValue))
deriving DecidableEq

/-- Whole-registry state: the repository's Map of service configurations
(in insertion order, as a JavaScript Map iterates), the heap of variable
arrays, and the trace of published events. -/
structure RegistryState where
  services : List ServiceConfiguration
  cells : List (List ConfigurationVariable)
  published : List PublishedEvent
deriving DecidableEq

/-- Exceptions thrown by the repository and service layer
(NotFoundException and the duplicate-create Error); messages are not
modelled, no property depends on them. -/
inductive ConfigError where
  | notFound
  | alreadyExists
deriving DecidableEq

/-- One entry of the sidecar's defined-variables response
(variable-definitions.dto.ts): `configuration` maps a key to its type
and default value.  Keys of a JavaScript Record are pairwise distinct;
theorems that use a response carry that fact as a hypothesis. -/
structure SidecarEntry where
  key : String
  type : JsValue
  defaultValue : JsValue
deriving DecidableEq

/-- Array.prototype.find over a variable array: first entry with the key. -/
def findVar (k : String) : List ConfigurationVariable → Option ConfigurationVariable
  | [] => none
  | x :: xs => if x.key = k then some x else findVar k xs

/-- One iteration of the forEach loop in batchAddOrUpdateServiceVariables
and batchAddOrUpdateReplicaVariables: findIndex on the key, overwrite the
first entry with that key when present, otherwise push at the end. -/
def upsert : List ConfigurationVariable → ConfigurationVariable → List ConfigurationVariable
  | [], v => [v]
  | x :: xs, v => if x.key = v.key then v :: xs else x :: upsert xs v

/-- The whole forEach loop over the incoming batch, left to right. -/
def upsertAll (l : List ConfigurationVariable) (vs : List ConfigurationVariable) :
    List ConfigurationVariable :=
  vs.foldl upsert l

/-- Number of entries of a variable array carrying the given key. -/
def countKey (k : String) : List ConfigurationVariable → Nat
  | [] => 0
  | x :: xs => (if x.key = k then 1 else 0) + countKey k xs

/-- Read a heap cell; a dangling reference reads as the empty array
(never reached from valid states). -/
def heapGet : List (List ConfigurationVariable) → Nat → List ConfigurationVariable
  | [], _ => []
  | c :: _, 0 => c
  | _ :: cs, n + 1 => heapGet cs n

/-- Overwrite a heap cell in place (no-op on a dangling reference). -/
def heapSet : List (List ConfigurationVariable) → Nat →
    List ConfigurationVariable → List (List ConfigurationVariable)
  | [], _, _ => []
  | _ :: cs, 0, c => c :: cs
  | c0 :: cs, n + 1, c => c0 :: heapSet cs n c

/-- Dereference a variable-array reference in a state. -/
def readCell (st : RegistryState) (r : ArrayRef) : List ConfigurationVariable :=
  heapGet st.cells r

/-- Mutate the array behind a reference, leaving everything else alone. -/
def writeCell (st : RegistryState) (r : ArrayRef) (c : List ConfigurationVariable) :
    RegistryState :=
  { st with cells := heapSet st.cells r c }

/-- Allocate a fresh array object in the heap. -/
def allocCell (st : RegistryState) (c : List ConfigurationVariable) :
    ArrayRef × RegistryState :=
  (st.cells.length, { st with cells := st.cells ++ [c] })

/-- Map.get by service name: the unique (first) record with that name. -/
def findServiceRecord (name : String) :
    List ServiceConfiguration → Option ServiceConfiguration
  | [] => none
  | s :: ss => if s.name = name then some s else findServiceRecord name ss

/-- Mutation through the live record returned by the repository: apply an
update to the (first) record with the given name. -/
def setServiceRecord (name : String) (f : ServiceConfiguration → ServiceConfiguration) :
    List ServiceConfiguration → List ServiceConfiguration
  | [] => []
  | s :: ss => if s.name = name then f s :: ss else s :: setServiceRecord name f ss

/-- Map.delete: drop the (first) record with the given name. -/
def removeServiceRecord (name : String) :
    List ServiceConfiguration → List ServiceConfiguration
  | [] => []
  | s :: ss => if s.name = name then ss else s :: removeServiceRecord name ss

/-- Array.prototype.find over the replica array: first replica with the id. -/
def findReplicaRecord (rid : String) : List ServiceReplica → Option ServiceReplica
  | [] => none
  | r :: rs => if r.id = rid then some r else findReplicaRecord rid rs

/-- Mutation through a found replica object: update the first replica
with the given id. -/
def setReplicaRecord (rid : String) (f : ServiceReplica → ServiceReplica) :
    List ServiceReplica → List ServiceReplica
  | [] => []
  | r :: rs => if r.id = rid then f r :: rs else r :: setReplicaRecord rid f rs

/-- ServiceConfigurationRepository.findByName: throws NotFoundException
when the name is absent. -/
def repoFindByName (st : RegistryState) (name : String) :
    Except ConfigError ServiceConfiguration :=
  match findServiceRecord name st.services with
  | some s => .ok s
  | none => .error .notFound

/-- ServiceConfigurationRepository.exists. -/
def repoExists (st : RegistryState) (name : String) : Bool :=
  (findServiceRecord name st.services).isSome

/-- ServiceConfigurationRepository.create: throws when the name exists,
otherwise inserts the record. -/
def repoCreate (st : RegistryState) (svc : ServiceConfiguration) :
    Except ConfigError RegistryState :=
  if repoExists st svc.name then .error .alreadyExists
  else .ok { st with services := st.services ++ [svc] }

/-- ServiceConfigurationRepository.delete: Map.delete semantics, true
exactly when an entry was removed. -/
def repoDelete (st : RegistryState) (name : String) : Bool × RegistryState :=
  if repoExists st name then
    (true, { st with services := removeServiceRecord name st.services })
  else (false, st)

/-- ConfigurationService.findService: delegates to the repository, whose
findByName already throws on a missing name; the TypeScript null-check
that follows can never fire. -/
def findService (st : RegistryState) (name : String) :
    Except ConfigError ServiceConfiguration :=
  repoFindByName st name

/-- The global-variables array addService fills from the sidecar response
(one push per Record entry, in entry order, holding the default value). -/
def newGlobalVars (cfg : List SidecarEntry) : List ConfigurationVariable :=
  cfg.map (fun e => { key := e.key, value := e.defaultValue })

/-- The ServiceConfiguration literal addService builds: one seed replica
whose fresh empty array sits at index |cells| of the heap, a fresh global
array at index |cells| + 1, and the definitions pushed from the sidecar
response in entry order. -/
def newServiceRecord (st : RegistryState) (serviceName initialReplicaId : String)
    (cfg : List SidecarEntry) : ServiceConfiguration :=
  { name := serviceName
    replicas := [{ id := initialReplicaId, replicaVariables := st.cells.length,
                   lastSeen := none }]
    globalVariables := st.cells.length + 1
    variableDefinitions := cfg.map (fun e => { key := e.key, type := e.type }) }

/-- The heap after addService's two array allocations: the seed replica's
array (still empty) and the global array after its pushes. -/
def newServiceHeap (st : RegistryState) (cfg : List SidecarEntry) : RegistryState :=
  { st with cells := st.cells ++ [[], newGlobalVars cfg] }

/-- ConfigurationService.addService: build the bare record (seed replica
with a fresh empty variable array, fresh global array), fill globals and
definitions from the sidecar response in entry order, then
repository.create.  The sidecar response is passed as an argument. -/
def addService (st : RegistryState) (serviceName initialReplicaId : String)
    (cfg : List SidecarEntry) :
    Except ConfigError (ServiceConfiguration × RegistryState) :=
  match repoCreate (newServiceHeap st cfg) (newServiceRecord st serviceName initialReplicaId cfg) with
  | .ok st4 => .ok (newServiceRecord st serviceName initialReplicaId cfg, st4)
  | .error e => .error e

/-- ConfigurationService.addReplica: the new replica's replicaVariables
field receives `service.globalVariables` itself, a reference copy of the
array, not a copy of its contents. -/
def addReplica (st : RegistryState) (serviceName replicaId : String) (now : Nat) :
    Except ConfigError (ServiceConfiguration × RegistryState) :=
  match findService st serviceName with
  | .error e => .error e
  | .ok svc =>
    let newReplica : ServiceReplica :=
      { id := replicaId, replicaVariables := svc.globalVariables, lastSeen := some now }
    let pushReplica := fun (s : ServiceConfiguration) =>
      { s with replicas := s.replicas ++ [newReplica] }
    .ok ({ svc with replicas := svc.replicas ++ [newReplica] },
         { st with services := setServiceRecord serviceName pushReplica st.services })

/-- ConfigurationService.heartbeat: findService throws on an unknown
service, so the subsequent TypeScript null-check branch that would call
addService is unreachable; a known service with an unknown replica id
goes to addReplica; otherwise only the replica's lastSeen is stamped. -/
def heartbeat (st : RegistryState) (serviceName replicaId : String) (now : Nat) :
    Except ConfigError RegistryState :=
  match findService st serviceName with
  | .error e => .error e
  | .ok svc =>
    match findReplicaRecord replicaId svc.replicas with
    | none =>
      match addReplica st serviceName replicaId now with
      | .ok p => .ok p.2
      | .error e => .error e
    | some _ =>
      let stamp := fun (rep : ServiceReplica) => { rep with lastSeen := some now }
      let stampInService := fun (s : ServiceConfiguration) =>
        { s with replicas := setReplicaRecord replicaId stamp s.replicas }
      .ok { st with services := setServiceRecord serviceName stampInService st.services }

/-- ConfigurationService.getServiceVariable. -/
def getServiceVariable (st : RegistryState) (serviceName variableKey : String) :
    Except ConfigError ConfigurationVariable :=
  match findService st serviceName with
  | .error e => .error e
  | .ok svc =>
    match findVar variableKey (readCell st svc.globalVariables) with
    | some v => .ok v
    | none => .error .notFound

/-- ConfigurationService.findReplica. -/
def findReplica (st : RegistryState) (serviceName replicaId : String) :
    Except ConfigError ServiceReplica :=
  match findService st serviceName with
  | .error e => .error e
  | .ok svc =>
    match findReplicaRecord replicaId svc.replicas with
    | some rep => .ok rep
    | none => .error .notFound

/-- ConfigurationService.getReplicaVariable. -/
def getReplicaVariable (st : RegistryState) (serviceName replicaId variableKey : String) :
    Except ConfigError ConfigurationVariable :=
  match findReplica st serviceName replicaId with
  | .error e => .error e
  | .ok rep =>
    match findVar variableKey (readCell st rep.replicaVariables) with
    | some v => .ok v
    | none => .error .notFound

/-- ConfigurationService.batchAddOrUpdateServiceVariables: look the
service up (throws when absent) and run the forEach merge loop on the
global variable array, in place.  The source performs no validation
against variableDefinitions, does not write to any replica array, and
publishes nothing. -/
def batchAddOrUpdateServiceVariables (st : RegistryState) (serviceName : String)
    (vars : List ConfigurationVariable) :
    Except ConfigError (ServiceConfiguration × RegistryState) :=
  match findService st serviceName with
  | .error e => .error e
  | .ok svc =>
    .ok (svc, writeCell st svc.globalVariables
          (upsertAll (readCell st svc.globalVariables) vars))

/-- ConfigurationService.batchAddOrUpdateReplicaVariables: same merge
loop, run on the array referenced by the found replica's
replicaVariables field. -/
def batchAddOrUpdateReplicaVariables (st : RegistryState) (serviceName replicaId : String)
    (vars : List ConfigurationVariable) :
    Except ConfigError (ServiceConfiguration × RegistryState) :=
  match findService st serviceName with
  | .error e => .error e
  | .ok svc =>
    match findReplicaRecord replicaId svc.replicas with
    | none => .error .notFound
    | some rep =>
      .ok (svc, writeCell st rep.replicaVariables
            (upsertAll (readCell st rep.replicaVariables) vars))

/-- ConfigurationService.deleteService: plain repository delete, a
boolean result and no exception. -/
def deleteService (st : RegistryState) (name : String) : Bool × RegistryState :=
  repoDelete st name

/-- ConfigurationService.deleteReplica: throws only when the service is
missing; a missing replica merely yields false from the length
comparison after the filter. -/
def deleteReplica (st : RegistryState) (serviceName replicaId : String) :
    Except ConfigError (Bool × RegistryState) :=
  match findService st serviceName with
  | .error e => .error e
  | .ok svc =>
    let newReplicas := svc.replicas.filter (fun rep => rep.id != replicaId)
    let dropReplica := fun (s : ServiceConfiguration) =>
      { s with replicas := s.replicas.filter (fun rep => rep.id != replicaId) }
    .ok (decide (newReplicas.length < svc.replicas.length),
         { st with services := setServiceRecord serviceName dropReplica st.services })

/-- ConfigurationController.updateServiceVariable (PUT
/configuration/:service/variables/:variable): wraps the path key and the
body value and delegates to the batch update with a singleton batch. -/
def updateServiceVariable (st : RegistryState) (serviceName variableKey : String)
    (value : JsValue) : Except ConfigError (ServiceConfiguration × RegistryState) :=
  batchAddOrUpdateServiceVariables st serviceName
    [{ key := variableKey, value := value }]

/-- JavaScript Record assignment accumulator[key] = value: overwrite in
place when the key exists, append otherwise. -/
def recordSet : List (String × JsValue) → String → JsValue → List (String × JsValue)
  | [], k, v => [(k, v)]
  | (k0, v0) :: rest, k, v =>
    if k0 = k then (k0, v) :: rest else (k0, v0) :: recordSet rest k v

/-- The reduce in EventService.buildConfigurationDto: flatten a variable
array into a key-to-value record. -/
def flattenVariables (vars : List ConfigurationVariable) : List (String × JsValue) :=
  vars.foldl (fun acc c => recordSet acc c.key c.value) []

/-- EventService.buildConfigurationDto: one entry per given replica,
mapping its id to its flattened variable record. -/
def buildConfigurationPayload (st : RegistryState) (replicas : List ServiceReplica) :
    List (String × List (String × JsValue)) :=
  replicas.map (fun rep => (rep.id, flattenVariables (readCell st rep.replicaVariables)))

/-- EventService.publishConfiguration: publish the payload on the
per-service topic.  Present in events.service.ts but never invoked by
any configuration-service operation. -/
def publishConfiguration (st : RegistryState) (serviceName : String)
    (replicas : List ServiceReplica) : RegistryState :=
  { st with published := st.published ++
      [{ pubsubName := "pubsub", topic := "config/" ++ serviceName,
         payload := buildConfigurationPayload st replicas }] }

/-- Keys are pairwise distinct within one variable array. -/
abbrev uniqueKeys (l : List ConfigurationVariable) : Prop :=
  (l.map ConfigurationVariable.key).Nodup

/-- Every variable array in the heap has pairwise-distinct keys. -/
abbrev CellsKeysUnique (st : RegistryState) : Prop :=
  ∀ c ∈ st.cells, uniqueKeys c

/-- Every array reference held by a service or replica denotes a real
array object; inherent to JavaScript references. -/
abbrev ValidRefs (st : RegistryState) : Prop :=
  ∀ svc ∈ st.services, svc.globalVariables < st.cells.length ∧
    ∀ rep ∈ svc.replicas, rep.replicaVariables < st.cells.length

/-- Registry with no services. -/
def stEmpty : RegistryState := { services := [], cells := [], published := [] }

/-- Registry with one service named orders whose global array (cell 0)
holds timeoutMs = 500 and whose sole replica r0 owns its separate array
(cell 1). -/
def st1 : RegistryState :=
  { services := [{ name := "orders"
                   replicas := [{ id := "r0", replicaVariables := 1, lastSeen := none }]
                   globalVariables := 0
                   variableDefinitions := [{ key := "timeoutMs", type := JsValue.vStr "integer" }] }]
    cells := [[{ key := "timeoutMs", value := JsValue.vInt 500 }],
              [{ key := "timeoutMs", value := JsValue.vInt 500 }]]
    published := [] }

/-- Service record with replicas r0 (own array, cell 1) and r1 whose
replicaVariables is the very global array (cell 0) — the shape addReplica
produces. -/
def svcAliased : ServiceConfiguration :=
  { name := "orders"
    replicas := [{ id := "r0", replicaVariables := 1, lastSeen := none },
                 { id := "r1", replicaVariables := 0, lastSeen := some 0 }]
    globalVariables := 0
    variableDefinitions := [{ key := "timeoutMs", type := JsValue.vStr "integer" }] }

/-- Like st1 but holding svcAliased with its aliased replica r1. -/
def stAliased : RegistryState :=
  { services := [svcAliased]
    cells := [[{ key := "timeoutMs", value := JsValue.vInt 500 }],
              [{ key := "timeoutMs", value := JsValue.vInt 500 }]]
    published := [] }

/-- Registry with one service that has declared no variable definitions
at all and an empty global array. -/
def stNoDefs : RegistryState :=
  { services := [{ name := "orders", replicas := [], globalVariables := 0
                   variableDefinitions := [] }]
    cells := [[]]
    published := [] }

/-- Variable timeoutMs = 500. -/
def vTm500 : ConfigurationVariable := { key := "timeoutMs", value := JsValue.vInt 500 }

/-- Variable timeoutMs = 700. -/
def vTm700 : ConfigurationVariable := { key := "timeoutMs", value := JsValue.vInt 700 }

/-- Variable timeoutMs = 900. -/
def vTm900 : ConfigurationVariable := { key := "timeoutMs", value := JsValue.vInt 900 }

/-- The service record stored in st1. -/
def svcSt1 : ServiceConfiguration :=
  { name := "orders"
    replicas := [{ id := "r0", replicaVariables := 1, lastSeen := none }]
    globalVariables := 0
    variableDefinitions := [{ key := "timeoutMs", type := JsValue.vStr "integer" }] }

/-- st1 after its global array has been merged with timeoutMs = 900. -/
def stTm900 : RegistryState :=
  { services := [svcSt1], cells := [[vTm900], [vTm500]], published := [] }

/-- The orders record after addReplica has appended replica r1 whose
replicaVariables is the global array reference 0. -/
def svcWithR1 : ServiceConfiguration :=
  { svcSt1 with replicas := svcSt1.replicas ++ [{ id := "r1", replicaVariables := 0, lastSeen := some 5 }] }

/-- st1 after addReplica for r1: only the record changed, no new array. -/
def stWithR1 : RegistryState := { st1 with services := [svcWithR1] }

/-- Sidecar response declaring a single integer variable timeoutMs with
default 500. -/
def cfg1 : List SidecarEntry :=
  [{ key := "timeoutMs", type := JsValue.vStr "integer", defaultValue := JsValue.vInt 500 }]

/-- The state ConfigurationService.deleteReplica leaves behind: the found
service record's replicas array replaced by its filtered copy. -/
def deleteReplicaState (st : RegistryState) (sname rid : String) : RegistryState :=
  { st with services := setServiceRecord sname (fun s => { s with replicas := s.replicas.filter (fun rep => rep.id != rid) }) st.services }

/-! Lemmas about the merge loop, the heap and the record lists. -/

theorem findVar_upsert_self (l : List ConfigurationVariable) (v : ConfigurationVariable) :
    findVar v.key (upsert l v) = some v := by
  induction l with
  | nil => simp [upsert, findVar]
  | cons x xs ih =>
    by_cases h : x.key = v.key
    · simp [upsert, h, findVar]
    · simp [upsert, h, findVar, ih]

theorem findVar_upsert_ne (l : List ConfigurationVariable) (v : ConfigurationVariable)
    (k : String) (h : k ≠ v.key) : findVar k (upsert l v) = findVar k l := by
  induction l with
  | nil =>
    simp only [upsert, findVar]
    rw [if_neg (Ne.symm h)]
  | cons x xs ih =>
    by_cases hx : x.key = v.key
    · simp only [upsert, if_pos hx, findVar]
      rw [if_neg (Ne.symm h), if_neg (fun hk => h (hk.symm.trans hx))]
    · simp only [upsert, if_neg hx, findVar]
      by_cases hk : x.key = k
      · rw [if_pos hk, if_pos hk]
      · rw [if_neg hk, if_neg hk, ih]

theorem mem_keys_upsert (l : List ConfigurationVariable) (v : ConfigurationVariable)
    (k : String) (h : k ∈ (upsert l v).map ConfigurationVariable.key) :
    k ∈ l.map ConfigurationVariable.key ∨ k = v.key := by
  induction l with
  | nil =>
    simp only [upsert, List.map_cons, List.map_nil, List.mem_singleton] at h
    exact Or.inr h
  | cons x xs ih =>
    by_cases hx : x.key = v.key
    · simp only [upsert, if_pos hx, List.map_cons] at h
      rcases List.mem_cons.mp h with h1 | h1
      · exact Or.inr h1
      · exact Or.inl (List.mem_cons.mpr (Or.inr h1))
    · simp only [upsert, if_neg hx, List.map_cons] at h
      rcases List.mem_cons.mp h with h1 | h1
      · exact Or.inl (List.mem_cons.mpr (Or.inl h1))
      · rcases ih h1 with h2 | h2
        · exact Or.inl (List.mem_cons.mpr (Or.inr h2))
        · exact Or.inr h2

theorem uniqueKeys_upsert (l : List ConfigurationVariable) (v : ConfigurationVariable)
    (h : uniqueKeys l) : uniqueKeys (upsert l v) := by
  induction l with
  | nil => simp [upsert, uniqueKeys]
  | cons x xs ih =>
    rw [uniqueKeys, List.map_cons, List.nodup_cons] at h
    by_cases hx : x.key = v.key
    · rw [uniqueKeys]
      simp only [upsert, if_pos hx, List.map_cons, List.nodup_cons]
      exact ⟨hx ▸ h.1, h.2⟩
    · rw [uniqueKeys]
      simp only [upsert, if_neg hx, List.map_cons, List.nodup_cons]
      refine ⟨fun hmem => ?_, ih h.2⟩
      rcases mem_keys_upsert xs v x.key hmem with h1 | h1
      · exact h.1 h1
      · exact hx h1

theorem uniqueKeys_upsertAll (l : List ConfigurationVariable)
    (vs : List ConfigurationVariable) (h : uniqueKeys l) : uniqueKeys (upsertAll l vs) := by
  induction vs generalizing l with
  | nil => exact h
  | cons v vs ih => exact ih (upsert l v) (uniqueKeys_upsert l v h)

theorem findVar_append (k : String) (l1 l2 : List ConfigurationVariable) :
    findVar k (l1 ++ l2) =
      match findVar k l1 with
      | some x => some x
      | none => findVar k l2 := by
  induction l1 with
  | nil => simp [findVar]
  | cons x xs ih =>
    by_cases h : x.key = k
    · simp [findVar, h]
    · simp [findVar, h, ih]

theorem findVar_eq_none_of_forall (k : String) (l : List ConfigurationVariable)
    (h : ∀ v ∈ l, v.key ≠ k) : findVar k l = none := by
  induction l with
  | nil => rfl
  | cons x xs ih =>
    have hx := h x (by simp)
    simp [findVar, hx, ih fun v hv => h v (by simp [hv])]

theorem findVar_isSome_of_exists (k : String) (l : List ConfigurationVariable)
    (h : ∃ v ∈ l, v.key = k) : (findVar k l).isSome := by
  induction l with
  | nil => simp at h
  | cons x xs ih =>
    by_cases hx : x.key = k
    · simp [findVar, hx]
    · have hex : ∃ v ∈ xs, v.key = k := by
        rcases h with ⟨v, hv, hk⟩
        rcases List.mem_cons.mp hv with h1 | h1
        · exact absurd (h1 ▸ hk) hx
        · exact ⟨v, h1, hk⟩
      simp [findVar, hx, ih hex]

theorem findVar_upsertAll_no_key (k : String) (l vs : List ConfigurationVariable)
    (h : ∀ v ∈ vs, v.key ≠ k) : findVar k (upsertAll l vs) = findVar k l := by
  induction vs generalizing l with
  | nil => rfl
  | cons v vs ih =>
    have step : findVar k (upsert l v) = findVar k l :=
      findVar_upsert_ne l v k (Ne.symm (h v (by simp)))
    calc findVar k (upsertAll (upsert l v) vs) = findVar k (upsert l v) :=
          ih (upsert l v) fun w hw => h w (by simp [hw])
      _ = findVar k l := step

theorem findVar_upsertAll_last (k : String) (vs : List ConfigurationVariable)
    (h : ∃ v ∈ vs, v.key = k) (l : List ConfigurationVariable) :
    findVar k (upsertAll l vs) = findVar k vs.reverse := by
  induction vs generalizing l with
  | nil => simp at h
  | cons v vs ih =>
    by_cases hvs : ∃ w ∈ vs, w.key = k
    · have hrec : findVar k (upsertAll (upsert l v) vs) = findVar k vs.reverse :=
        ih hvs (upsert l v)
      have hex : ∃ w ∈ vs.reverse, w.key = k := by
        rcases hvs with ⟨w, hw, hk⟩
        exact ⟨w, List.mem_reverse.mpr hw, hk⟩
      have hsome := findVar_isSome_of_exists k vs.reverse hex
      rcases hx : findVar k vs.reverse with _ | x
      · rw [hx] at hsome; simp at hsome
      · show findVar k (upsertAll (upsert l v) vs) = _
        rw [hrec, hx, List.reverse_cons, findVar_append, hx]
    · have hv : v.key = k := by
        rcases h with ⟨w, hw, hk⟩
        rcases List.mem_cons.mp hw with h1 | h1
        · exact h1 ▸ hk
        · exact absurd ⟨w, h1, hk⟩ hvs
      have hnone : findVar k vs.reverse = none :=
        findVar_eq_none_of_forall k vs.reverse fun w hw hk =>
          hvs ⟨w, List.mem_reverse.mp hw, hk⟩
      show findVar k (upsertAll (upsert l v) vs) = _
      rw [findVar_upsertAll_no_key k (upsert l v) vs
            (fun w hw hk => hvs ⟨w, hw, hk⟩),
          List.reverse_cons, findVar_append, hnone]
      have hself := findVar_upsert_self l v
      rw [hv] at hself
      rw [hself]
      simp [findVar, hv]

theorem mem_keys_of_findVar (k : String) (l : List ConfigurationVariable)
    (x : ConfigurationVariable) (h : findVar k l = some x) :
    k ∈ l.map ConfigurationVariable.key := by
  induction l with
  | nil => simp [findVar] at h
  | cons y ys ih =>
    by_cases hy : y.key = k
    · simp [hy]
    · simp only [findVar] at h
      rw [if_neg hy] at h
      simp [ih h]

theorem countKey_eq_zero (k : String) (l : List ConfigurationVariable)
    (h : ∀ v ∈ l, v.key ≠ k) : countKey k l = 0 := by
  induction l with
  | nil => rfl
  | cons x xs ih =>
    simp [countKey, h x (by simp), ih fun v hv => h v (by simp [hv])]

theorem countKey_eq_one (k : String) (l : List ConfigurationVariable)
    (hu : uniqueKeys l) (hm : k ∈ l.map ConfigurationVariable.key) :
    countKey k l = 1 := by
  induction l with
  | nil => simp at hm
  | cons x xs ih =>
    rw [uniqueKeys, List.map_cons, List.nodup_cons] at hu
    by_cases hx : x.key = k
    · have hz : countKey k xs = 0 := by
        refine countKey_eq_zero k xs fun v hv hk => hu.1 ?_
        have hmm : v.key ∈ xs.map ConfigurationVariable.key :=
          List.mem_map_of_mem ConfigurationVariable.key hv
        rw [hk, ← hx] at hmm
        exact hmm
      simp [countKey, hx, hz]
    · have hm' : k ∈ xs.map ConfigurationVariable.key := by
        rw [List.map_cons] at hm
        rcases List.mem_cons.mp hm with h1 | h1
        · exact absurd h1.symm hx
        · exact h1
      simp [countKey, hx, ih hu.2 hm']

theorem heapGet_heapSet_self (cs : List (List ConfigurationVariable)) (n : Nat)
    (c : List ConfigurationVariable) (h : n < cs.length) :
    heapGet (heapSet cs n c) n = c := by
  induction cs generalizing n with
  | nil => simp at h
  | cons c0 cs ih =>
    cases n with
    | zero => rfl
    | succ m =>
      show heapGet (heapSet cs m c) m = c
      exact ih m (by simpa using h)

theorem heapGet_heapSet_ne (cs : List (List ConfigurationVariable)) (n m : Nat)
    (c : List ConfigurationVariable) (h : m ≠ n) :
    heapGet (heapSet cs n c) m = heapGet cs m := by
  induction cs generalizing n m with
  | nil => rfl
  | cons c0 cs ih =>
    cases n with
    | zero =>
      cases m with
      | zero => exact absurd rfl h
      | succ m' => rfl
    | succ n' =>
      cases m with
      | zero => rfl
      | succ m' =>
        show heapGet (heapSet cs n' c) m' = heapGet cs m'
        exact ih n' m' fun he => h (by rw [he])

theorem mem_heapSet (cs : List (List ConfigurationVariable)) (n : Nat)
    (c x : List ConfigurationVariable) (h : x ∈ heapSet cs n c) : x = c ∨ x ∈ cs := by
  induction cs generalizing n with
  | nil => simp [heapSet] at h
  | cons c0 cs ih =>
    cases n with
    | zero =>
      rcases List.mem_cons.mp h with h1 | h1
      · exact Or.inl h1
      · exact Or.inr (List.mem_cons.mpr (Or.inr h1))
    | succ m =>
      rcases List.mem_cons.mp h with h1 | h1
      · exact Or.inr (List.mem_cons.mpr (Or.inl h1))
      · rcases ih m h1 with h2 | h2
        · exact Or.inl h2
        · exact Or.inr (List.mem_cons.mpr (Or.inr h2))

theorem heapGet_mem_or_nil (cs : List (List ConfigurationVariable)) (n : Nat) :
    heapGet cs n ∈ cs ∨ heapGet cs n = [] := by
  induction cs generalizing n with
  | nil => exact Or.inr rfl
  | cons c0 cs ih =>
    cases n with
    | zero => exact Or.inl (List.mem_cons.mpr (Or.inl rfl))
    | succ m =>
      rcases ih m with h | h
      · exact Or.inl (List.mem_cons.mpr (Or.inr h))
      · exact Or.inr h

theorem findServiceRecord_mem (name : String) (ss : List ServiceConfiguration)
    (svc : ServiceConfiguration) (h : findServiceRecord name ss = some svc) : svc ∈ ss := by
  induction ss with
  | nil => simp [findServiceRecord] at h
  | cons s rest ih =>
    by_cases hs : s.name = name
    · simp only [findServiceRecord, if_pos hs, Option.some.injEq] at h
      exact List.mem_cons.mpr (Or.inl h.symm)
    · simp only [findServiceRecord, if_neg hs] at h
      exact List.mem_cons.mpr (Or.inr (ih h))

theorem uniqueKeys_readCell (st : RegistryState) (r : ArrayRef)
    (hInv : CellsKeysUnique st) : uniqueKeys (readCell st r) := by
  rcases heapGet_mem_or_nil st.cells r with h | h
  · exact hInv _ h
  · rw [readCell, h]
    simp [uniqueKeys]

theorem cellsKeysUnique_writeCell (st : RegistryState) (r : ArrayRef)
    (c : List ConfigurationVariable) (hInv : CellsKeysUnique st) (hc : uniqueKeys c) :
    CellsKeysUnique (writeCell st r c) := by
  intro x hx
  rcases mem_heapSet st.cells r c x hx with h | h
  · exact h ▸ hc
  · exact hInv x h

theorem deleteReplica_flag (rid : String) (l : List ServiceReplica) :
    decide ((l.filter (fun x => x.id != rid)).length < l.length) =
      l.any (fun x => x.id == rid) := by
  induction l with
  | nil => rfl
  | cons r rs ih =>
    by_cases h : r.id = rid
    · have hb : (r.id != rid) = false := by simp [h]
      have hb2 : (r.id == rid) = true := by simp [h]
      rw [List.filter_cons_of_neg (by simp [hb]), List.any_cons, hb2, Bool.true_or,
          List.length_cons]
      have hle := List.length_filter_le (fun x => x.id != rid) rs
      simp [Nat.lt_succ_iff, hle]
    · have hb : (r.id != rid) = true := by simp [h]
      have hb2 : (r.id == rid) = false := by simp [h]
      rw [List.filter_cons_of_pos (by simp [hb]), List.any_cons, hb2, Bool.false_or,
          List.length_cons, List.length_cons, ← ih]
      simp [Nat.succ_lt_succ_iff]

theorem findReplicaRecord_mem (rid : String) (rs : List ServiceReplica)
    (rep : ServiceReplica) (h : findReplicaRecord rid rs = some rep) : rep ∈ rs := by
  induction rs with
  | nil => simp [findReplicaRecord] at h
  | cons r rest ih =>
    by_cases hr : r.id = rid
    · simp only [findReplicaRecord, if_pos hr, Option.some.injEq] at h
      exact List.mem_cons.mpr (Or.inl h.symm)
    · simp only [findReplicaRecord, if_neg hr] at h
      exact List.mem_cons.mpr (Or.inr (ih h))

/-! Claim theorems. -/

/-- Claim C1 (code bug): heartbeat for a service name not present in the
repository does not create and persist a ServiceConfiguration; the
NotFoundException thrown by findService propagates and the heartbeat
fails, contradicting the claim and the method's own documentation. -/
theorem heartbeat_unknown_service_fails :
    heartbeat stEmpty "orders" "r1" 0 = Except.error ConfigError.notFound := by
  decide

/-- Claim C2 is false: after addReplica the fresh replica r1's variable
array is the same array object (reference 0) as the service's
globalVariables, so a replica-scoped batch mutation through r1 changes
the global list from timeoutMs 500 to timeoutMs 900. -/
theorem addReplica_value_copy_counterexample :
    addReplica st1 "orders" "r1" 5 = Except.ok (svcWithR1, stWithR1) ∧
    readCell stWithR1 0 = [vTm500] ∧
    (batchAddOrUpdateReplicaVariables stWithR1 "orders" "r1" [vTm900]).map
      (fun q => readCell q.2 q.1.globalVariables) = Except.ok [vTm900] := by
  decide

/-- Claim C2 amended: the freshly added replica's replicaVariables is an
aliased reference to the service's globalVariables array, not a value
copy: addReplica stores the very global array reference in the new
replica and allocates no new array, so mutating either list mutates the
one shared array. -/
theorem addReplica_aliases_globalVariables (st : RegistryState) (sname rid : String)
    (now : Nat) (svc : ServiceConfiguration) (st' : RegistryState)
    (h : addReplica st sname rid now = Except.ok (svc, st')) :
    svc.replicas.getLast? =
      some { id := rid, replicaVariables := svc.globalVariables, lastSeen := some now } ∧
    st'.cells = st.cells := by
  unfold addReplica at h
  cases hf : findService st sname with
  | error e => rw [hf] at h; cases h
  | ok svc0 =>
    rw [hf] at h
    simp only [Except.ok.injEq, Prod.mk.injEq] at h
    obtain ⟨h1, h2⟩ := h
    subst h1
    subst h2
    exact ⟨by simp [List.getLast?_concat], rfl⟩

/-- Witness for the amended C2 theorem at st1. -/
theorem addReplica_aliases_globalVariables_witness :
    svcWithR1.replicas.getLast? =
      some { id := "r1", replicaVariables := svcWithR1.globalVariables, lastSeen := some 5 } ∧
    stWithR1.cells = st1.cells :=
  addReplica_aliases_globalVariables st1 "orders" "r1" 5 svcWithR1 stWithR1 (by decide)

/-- Claim C3 is false: the batch update validates nothing; with an empty
variableDefinitions list a batch containing the undefined key x succeeds
and rewrites the global array instead of failing with ValidationFailed
and leaving it unchanged. -/
theorem batch_validation_counterexample :
    readCell stNoDefs 0 = [] ∧
    batchAddOrUpdateServiceVariables stNoDefs "orders" [{ key := "x", value := JsValue.vInt 1 }] =
      Except.ok ({ name := "orders", replicas := [], globalVariables := 0,
                   variableDefinitions := [] },
        { services := stNoDefs.services, cells := [[{ key := "x", value := JsValue.vInt 1 }]],
          published := [] }) := by
  decide

/-- Claim C3 amended: batchAddOrUpdateServiceVariables performs no
validation at all: whenever the service exists the call succeeds and
merges every variable of the batch into the global array by key,
irrespective of variableDefinitions; no ValidationFailed outcome exists
in the code. -/
theorem batchServiceVariables_no_validation (st : RegistryState) (sname : String)
    (vs : List ConfigurationVariable) (svc : ServiceConfiguration)
    (h : findServiceRecord sname st.services = some svc) :
    batchAddOrUpdateServiceVariables st sname vs =
      Except.ok (svc, writeCell st svc.globalVariables
        (upsertAll (readCell st svc.globalVariables) vs)) := by
  unfold batchAddOrUpdateServiceVariables findService repoFindByName
  rw [h]

/-- Witness for the amended C3 theorem at st1, whose service declares a
definition for timeoutMs only; the undefined key extra is merged anyway. -/
theorem batchServiceVariables_no_validation_witness :
    batchAddOrUpdateServiceVariables st1 "orders" [{ key := "extra", value := JsValue.vNull }] =
      Except.ok (svcSt1, writeCell st1 svcSt1.globalVariables
        (upsertAll (readCell st1 svcSt1.globalVariables)
          [{ key := "extra", value := JsValue.vNull }])) :=
  batchServiceVariables_no_validation st1 "orders"
    [{ key := "extra", value := JsValue.vNull }] svcSt1 (by decide)

/-- Claim C4 is false: after a service registers via addService (its seed
replica r1 holds its own empty array, cell 0) a successful global batch
update leaves r1's replicaVariables empty rather than value-equal to the
new globalVariables. -/
theorem batch_propagation_counterexample :
    ((addService stEmpty "orders" "r1" cfg1).bind
        (fun p => batchAddOrUpdateServiceVariables p.2 "orders" [vTm900])).map
      (fun q => (readCell q.2 q.1.globalVariables,
                 q.1.replicas.map (fun rep => readCell q.2 rep.replicaVariables))) =
      Except.ok ([vTm900], [[]]) := by
  decide

/-- Claim C4 amended: a successful global batch update propagates nothing
to replicas: it writes only the array behind the service's
globalVariables reference; the service list, the event trace and every
array under any other reference are unchanged, so a replica's list ends
up equal to the new globalVariables only when it already aliased the
global array. -/
theorem batchServiceVariables_frame (st : RegistryState) (sname : String)
    (vs : List ConfigurationVariable) (svc : ServiceConfiguration) (st' : RegistryState)
    (h : batchAddOrUpdateServiceVariables st sname vs = Except.ok (svc, st')) :
    st'.services = st.services ∧ st'.published = st.published ∧
    ∀ r : ArrayRef, r ≠ svc.globalVariables → readCell st' r = readCell st r := by
  unfold batchAddOrUpdateServiceVariables at h
  cases hf : findService st sname with
  | error e => rw [hf] at h; cases h
  | ok svc0 =>
    rw [hf] at h
    simp only [Except.ok.injEq, Prod.mk.injEq] at h
    obtain ⟨h1, h2⟩ := h
    subst h1
    subst h2
    exact ⟨rfl, rfl, fun r hr => heapGet_heapSet_ne st.cells svc0.globalVariables r _ hr⟩

/-- Witness for the amended C4 theorem at st1: replica r0's array (cell 1)
is untouched by a global batch update. -/
theorem batchServiceVariables_frame_witness :
    readCell stTm900 1 = readCell st1 1 :=
  (batchServiceVariables_frame st1 "orders" [vTm900] svcSt1 stTm900 (by decide)).2.2 1
    (by decide)

/-- Claim C5 is false: in stAliased — exactly the shape addReplica leaves
behind — replica r1's array is the global array, so a replica-scoped
batch for r1 rewrites the service's globalVariables from 500 to 900. -/
theorem batchReplica_frame_counterexample :
    readCell stAliased 0 = [vTm500] ∧
    (batchAddOrUpdateReplicaVariables stAliased "orders" "r1" [vTm900]).map
      (fun q => readCell q.2 q.1.globalVariables) = Except.ok [vTm900] := by
  decide

/-- Claim C5 amended: batchAddOrUpdateReplicaVariables writes exactly one
array, the one behind the targeted replica's replicaVariables reference:
the service list and event trace are unchanged and every array under a
different reference is untouched; globalVariables and sibling replicas
are affected precisely when they alias the targeted array (as replicas
added by addReplica do). -/
theorem batchReplicaVariables_frame (st : RegistryState) (sname rid : String)
    (vs : List ConfigurationVariable) (svc : ServiceConfiguration) (rep : ServiceReplica)
    (hs : findServiceRecord sname st.services = some svc)
    (hr : findReplicaRecord rid svc.replicas = some rep) :
    batchAddOrUpdateReplicaVariables st sname rid vs =
      Except.ok (svc, writeCell st rep.replicaVariables
        (upsertAll (readCell st rep.replicaVariables) vs)) ∧
    (writeCell st rep.replicaVariables
        (upsertAll (readCell st rep.replicaVariables) vs)).services = st.services ∧
    (writeCell st rep.replicaVariables
        (upsertAll (readCell st rep.replicaVariables) vs)).published = st.published ∧
    ∀ r : ArrayRef, r ≠ rep.replicaVariables →
      readCell (writeCell st rep.replicaVariables
        (upsertAll (readCell st rep.replicaVariables) vs)) r = readCell st r := by
  refine ⟨?_, rfl, rfl, fun r hrr => ?_⟩
  · simp only [batchAddOrUpdateReplicaVariables, findService, repoFindByName, hs, hr]
  · exact heapGet_heapSet_ne st.cells rep.replicaVariables r _ hrr

/-- Witness for the amended C5 theorem at stAliased, targeting replica r0
whose own array is cell 1: the global array (cell 0) is untouched. -/
theorem batchReplicaVariables_frame_witness :
    readCell (writeCell stAliased 1 (upsertAll (readCell stAliased 1) [vTm900])) 0 =
      readCell stAliased 0 :=
  (batchReplicaVariables_frame stAliased "orders" "r0" [vTm900] svcAliased
    { id := "r0", replicaVariables := 1, lastSeen := none }
    (by decide) (by decide)).2.2.2 0 (by decide)

/-- Claim C6 is false: a successful batchAddOrUpdateServiceVariables call
publishes no event at all: starting from a state with an empty event
trace, the trace is still empty afterwards instead of holding exactly one
configuration-changed event. -/
theorem batch_publish_counterexample :
    st1.published = [] ∧
    (batchAddOrUpdateServiceVariables st1 "orders" [vTm900]).map
      (fun q => q.2.published) = Except.ok [] := by
  decide

/-- Claim C6 amended: a successful batchAddOrUpdateServiceVariables call
publishes nothing: the published-event trace after the call equals the
trace before it (EventService.publishConfiguration exists in the event
layer but is never invoked on this path). -/
theorem batchServiceVariables_publishes_nothing (st : RegistryState) (sname : String)
    (vs : List ConfigurationVariable) (svc : ServiceConfiguration) (st' : RegistryState)
    (h : batchAddOrUpdateServiceVariables st sname vs = Except.ok (svc, st')) :
    st'.published = st.published := by
  unfold batchAddOrUpdateServiceVariables at h
  cases hf : findService st sname with
  | error e => rw [hf] at h; cases h
  | ok svc0 =>
    rw [hf] at h
    simp only [Except.ok.injEq, Prod.mk.injEq] at h
    obtain ⟨h1, h2⟩ := h
    subst h2
    rfl

/-- Witness for the amended C6 theorem at st1. -/
theorem batchServiceVariables_publishes_nothing_witness :
    stTm900.published = st1.published :=
  batchServiceVariables_publishes_nothing st1 "orders" [vTm900] svcSt1 stTm900 (by decide)

/-- Claim C7 is false: deleteService on a missing name returns false with
no NotFound failure, and deleteReplica on an existing service with a
missing replica id returns Except.ok false instead of failing with
NotFound. -/
theorem delete_notFound_counterexample :
    deleteService stEmpty "ghost" = (false, stEmpty) ∧
    deleteReplica st1 "orders" "ghost" = Except.ok (false, st1) := by
  decide

/-- Claim C7 amended: deleteService never fails: it returns true and
removes the record exactly when the name exists, otherwise false with
the state unchanged.  deleteReplica fails with NotFound only when the
service is missing; on an existing service it filters the replica list
and returns true exactly when some replica carried the id, and false
(not a failure) when the replica is unknown. -/
theorem delete_semantics (st : RegistryState) (sname rid : String) :
    ((deleteService st sname).1 = repoExists st sname) ∧
    (findServiceRecord sname st.services = none → deleteService st sname = (false, st)) ∧
    (∀ svc, findServiceRecord sname st.services = some svc →
      deleteService st sname =
        (true, { st with services := removeServiceRecord sname st.services })) ∧
    (findServiceRecord sname st.services = none →
      deleteReplica st sname rid = Except.error ConfigError.notFound) ∧
    (∀ svc, findServiceRecord sname st.services = some svc →
      deleteReplica st sname rid =
        Except.ok (svc.replicas.any (fun rep => rep.id == rid),
          deleteReplicaState st sname rid)) := by
  refine ⟨?_, ?_, ?_, ?_, ?_⟩
  · unfold deleteService repoDelete
    split
    · next hex => exact hex.symm
    · next hex => exact (Bool.not_eq_true _).mp hex |>.symm
  · intro h
    simp [deleteService, repoDelete, repoExists, h]
  · intro svc hsvc
    simp [deleteService, repoDelete, repoExists, hsvc]
  · intro h
    unfold deleteReplica findService repoFindByName
    rw [h]
  · intro svc hsvc
    simp only [deleteReplica, findService, repoFindByName, hsvc,
      ← deleteReplica_flag rid svc.replicas]
    rfl

/-- Witness for the amended C7 theorem at st1: a successful deleteService
removes the orders record, and deleteReplica with a replica id that no
replica carries returns false without failing. -/
theorem delete_semantics_witness :
    deleteService st1 "orders" =
      (true, { st1 with services := removeServiceRecord "orders" st1.services }) ∧
    deleteReplica st1 "orders" "ghost" =
      Except.ok (svcSt1.replicas.any (fun rep => rep.id == "ghost"),
        deleteReplicaState st1 "orders" "ghost") :=
  ⟨(delete_semantics st1 "orders" "ghost").2.2.1 svcSt1 (by decide),
   (delete_semantics st1 "orders" "ghost").2.2.2.2 svcSt1 (by decide)⟩

/-- Claim C8 (confirmed): round-trip at the single-variable global
endpoint: when the PUT of value v under key k succeeds for an existing
service (and every stored array reference is a real array, as JavaScript
references are), the subsequent GET of key k on that service returns
exactly the variable with key k and value v. -/
theorem put_get_roundtrip (st : RegistryState) (sname k : String) (v : JsValue)
    (svc : ServiceConfiguration) (st' : RegistryState)
    (hwf : ValidRefs st)
    (h : updateServiceVariable st sname k v = Except.ok (svc, st')) :
    getServiceVariable st' sname k = Except.ok { key := k, value := v } := by
  unfold updateServiceVariable batchAddOrUpdateServiceVariables at h
  cases hf : findService st sname with
  | error e => rw [hf] at h; cases h
  | ok svc0 =>
    rw [hf] at h
    simp only [Except.ok.injEq, Prod.mk.injEq] at h
    obtain ⟨h1, h2⟩ := h
    subst h1
    subst h2
    have hmem : svc0 ∈ st.services := by
      unfold findService repoFindByName at hf
      cases hh : findServiceRecord sname st.services with
      | none => rw [hh] at hf; cases hf
      | some s =>
        rw [hh] at hf
        cases hf
        exact findServiceRecord_mem sname st.services _ hh
    have hlen := (hwf svc0 hmem).1
    have hfs : findService (writeCell st svc0.globalVariables
        (upsertAll (readCell st svc0.globalVariables) [{ key := k, value := v }]))
        sname = Except.ok svc0 := hf
    simp only [getServiceVariable, hfs]
    have hread : readCell (writeCell st svc0.globalVariables
        (upsertAll (readCell st svc0.globalVariables) [{ key := k, value := v }]))
        svc0.globalVariables =
        upsertAll (readCell st svc0.globalVariables) [{ key := k, value := v }] :=
      heapGet_heapSet_self st.cells svc0.globalVariables _ hlen
    rw [hread]
    have hself : findVar k (upsert (readCell st svc0.globalVariables)
        { key := k, value := v }) = some { key := k, value := v } :=
      findVar_upsert_self (readCell st svc0.globalVariables) { key := k, value := v }
    rw [show upsertAll (readCell st svc0.globalVariables) [{ key := k, value := v }] =
        upsert (readCell st svc0.globalVariables) { key := k, value := v } from rfl, hself]

/-- Witness for C8 at st1. -/
theorem put_get_roundtrip_witness :
    getServiceVariable stTm900 "orders" "timeoutMs" = Except.ok vTm900 :=
  put_get_roundtrip st1 "orders" "timeoutMs" (JsValue.vInt 900) svcSt1 stTm900
    (by decide) (by decide)

/-- Claim C9 (confirmed): starting from a state in which every variable
array has pairwise-distinct keys, every registry operation — heartbeat,
addService (for a sidecar response whose record keys are distinct, as
JavaScript Record keys always are), addReplica, both batch updates and
both deletes — leaves every variable array with pairwise-distinct keys,
hence keys stay unique within each service's global list and within each
replica's list. -/
theorem registry_ops_preserve_uniqueKeys (st : RegistryState) (cfg : List SidecarEntry)
    (hInv : CellsKeysUnique st) (hcfg : (cfg.map SidecarEntry.key).Nodup) :
    (∀ sname rid now st', heartbeat st sname rid now = Except.ok st' →
      CellsKeysUnique st') ∧
    (∀ sname rid svc st', addService st sname rid cfg = Except.ok (svc, st') →
      CellsKeysUnique st') ∧
    (∀ sname rid now svc st', addReplica st sname rid now = Except.ok (svc, st') →
      CellsKeysUnique st') ∧
    (∀ sname vs svc st', batchAddOrUpdateServiceVariables st sname vs =
      Except.ok (svc, st') → CellsKeysUnique st') ∧
    (∀ sname rid vs svc st', batchAddOrUpdateReplicaVariables st sname rid vs =
      Except.ok (svc, st') → CellsKeysUnique st') ∧
    (∀ sname, CellsKeysUnique (deleteService st sname).2) ∧
    (∀ sname rid b st', deleteReplica st sname rid = Except.ok (b, st') →
      CellsKeysUnique st') := by
  have hAddRep : ∀ sname rid now svc st', addReplica st sname rid now =
      Except.ok (svc, st') → CellsKeysUnique st' := by
    intro sname rid now svc st' h
    unfold addReplica at h
    cases hf : findService st sname with
    | error e => rw [hf] at h; cases h
    | ok svc0 =>
      rw [hf] at h
      simp only [Except.ok.injEq, Prod.mk.injEq] at h
      obtain ⟨h1, h2⟩ := h
      subst h2
      exact fun c hc => hInv c hc
  have hNewHeap : CellsKeysUnique (newServiceHeap st cfg) := by
    intro c hc
    rcases List.mem_append.mp hc with hc1 | hc1
    · exact hInv c hc1
    · rcases List.mem_cons.mp hc1 with hc2 | hc2
      · rw [hc2]
        simp [uniqueKeys]
      · rw [List.mem_singleton.mp hc2]
        show ((cfg.map fun e =>
          ({ key := e.key, value := e.defaultValue } : ConfigurationVariable)).map
            ConfigurationVariable.key).Nodup
        rw [List.map_map]
        exact hcfg
  have hAddSvc : ∀ sname rid svc st', addService st sname rid cfg =
      Except.ok (svc, st') → CellsKeysUnique st' := by
    intro sname rid svc st' h
    unfold addService at h
    cases hcr : repoCreate (newServiceHeap st cfg) (newServiceRecord st sname rid cfg) with
    | error e => rw [hcr] at h; cases h
    | ok st4 =>
      rw [hcr] at h
      simp only [Except.ok.injEq, Prod.mk.injEq] at h
      obtain ⟨h1, h2⟩ := h
      subst h2
      unfold repoCreate at hcr
      by_cases hex : repoExists (newServiceHeap st cfg) (newServiceRecord st sname rid cfg).name
      · rw [if_pos hex] at hcr; cases hcr
      · rw [if_neg hex] at hcr
        simp only [Except.ok.injEq] at hcr
        subst hcr
        exact fun c hc => hNewHeap c hc
  have hBatchSvc : ∀ sname vs svc st', batchAddOrUpdateServiceVariables st sname vs =
      Except.ok (svc, st') → CellsKeysUnique st' := by
    intro sname vs svc st' h
    unfold batchAddOrUpdateServiceVariables at h
    cases hf : findService st sname with
    | error e => rw [hf] at h; cases h
    | ok svc0 =>
      rw [hf] at h
      simp only [Except.ok.injEq, Prod.mk.injEq] at h
      obtain ⟨h1, h2⟩ := h
      subst h2
      exact cellsKeysUnique_writeCell st _ _ hInv
        (uniqueKeys_upsertAll _ vs (uniqueKeys_readCell st _ hInv))
  have hBatchRep : ∀ sname rid vs svc st', batchAddOrUpdateReplicaVariables st sname rid vs =
      Except.ok (svc, st') → CellsKeysUnique st' := by
    intro sname rid vs svc st' h
    cases hf : findService st sname with
    | error e =>
      have heq : batchAddOrUpdateReplicaVariables st sname rid vs = Except.error e := by
        simp only [batchAddOrUpdateReplicaVariables, hf]
      rw [heq] at h
      cases h
    | ok svc0 =>
      cases hr : findReplicaRecord rid svc0.replicas with
      | none =>
        have heq : batchAddOrUpdateReplicaVariables st sname rid vs =
            Except.error ConfigError.notFound := by
          simp only [batchAddOrUpdateReplicaVariables, hf, hr]
        rw [heq] at h
        cases h
      | some rep =>
        have heq : batchAddOrUpdateReplicaVariables st sname rid vs =
            Except.ok (svc0, writeCell st rep.replicaVariables
              (upsertAll (readCell st rep.replicaVariables) vs)) := by
          simp only [batchAddOrUpdateReplicaVariables, hf, hr]
        rw [heq] at h
        simp only [Except.ok.injEq, Prod.mk.injEq] at h
        obtain ⟨h1, h2⟩ := h
        subst h2
        exact cellsKeysUnique_writeCell st _ _ hInv
          (uniqueKeys_upsertAll _ vs (uniqueKeys_readCell st _ hInv))
  have hHb : ∀ sname rid now st', heartbeat st sname rid now = Except.ok st' →
      CellsKeysUnique st' := by
    intro sname rid now st' h
    cases hf : findService st sname with
    | error e =>
      have heq : heartbeat st sname rid now = Except.error e := by
        simp only [heartbeat, hf]
      rw [heq] at h
      cases h
    | ok svc0 =>
      cases hr : findReplicaRecord rid svc0.replicas with
      | none =>
        cases ha : addReplica st sname rid now with
        | error e =>
          have heq : heartbeat st sname rid now = Except.error e := by
            simp only [heartbeat, hf, hr, ha]
          rw [heq] at h
          cases h
        | ok p =>
          have heq : heartbeat st sname rid now = Except.ok p.2 := by
            simp only [heartbeat, hf, hr, ha]
          rw [heq] at h
          simp only [Except.ok.injEq] at h
          subst h
          exact hAddRep sname rid now p.1 p.2 ha
      | some rep =>
        have heq : heartbeat st sname rid now = Except.ok { st with services := setServiceRecord sname (fun s => { s with replicas := setReplicaRecord rid (fun r0 => { r0 with lastSeen := some now }) s.replicas }) st.services } := by
          simp only [heartbeat, hf, hr]
        rw [heq] at h
        simp only [Except.ok.injEq] at h
        subst h
        exact fun c hc => hInv c hc
  have hDelSvc : ∀ sname, CellsKeysUnique (deleteService st sname).2 := by
    intro sname
    unfold deleteService repoDelete
    split
    · exact fun c hc => hInv c hc
    · exact fun c hc => hInv c hc
  have hDelRep : ∀ sname rid b st', deleteReplica st sname rid = Except.ok (b, st') →
      CellsKeysUnique st' := by
    intro sname rid b st' h
    unfold deleteReplica at h
    cases hf : findService st sname with
    | error e => rw [hf] at h; cases h
    | ok svc0 =>
      rw [hf] at h
      simp only [Except.ok.injEq, Prod.mk.injEq] at h
      obtain ⟨h1, h2⟩ := h
      subst h2
      exact fun c hc => hInv c hc
  exact ⟨hHb, hAddSvc, hAddRep, hBatchSvc, hBatchRep, hDelSvc, hDelRep⟩

/-- Witness for C9 at st1: after the global batch update that rewrites
timeoutMs to 900, every array still has pairwise-distinct keys. -/
theorem registry_ops_preserve_uniqueKeys_witness : CellsKeysUnique stTm900 :=
  (registry_ops_preserve_uniqueKeys st1 cfg1 (by decide) (by decide)).2.2.2.1
    "orders" [vTm900] svcSt1 stTm900 (by decide)

/-- Claim C10 (confirmed): when the batch names the same key more than
once, a successful batch update leaves exactly one entry for that key in
the targeted list — the global array for the service variant, the
targeted replica's array for the replica variant — and that entry is the
last occurrence of the key in the batch (the first hit in the reversed
batch), because each later occurrence overwrites the entry the earlier
one created. -/
theorem batch_duplicate_keys_last_wins (st : RegistryState) (sname rid k : String)
    (vs : List ConfigurationVariable) (hwf : ValidRefs st)
    (hk : ∃ v ∈ vs, v.key = k) :
    (∀ svc st', uniqueKeys (readCell st svc.globalVariables) →
      batchAddOrUpdateServiceVariables st sname vs = Except.ok (svc, st') →
      countKey k (readCell st' svc.globalVariables) = 1 ∧
      findVar k (readCell st' svc.globalVariables) = findVar k vs.reverse) ∧
    (∀ svc rep st', uniqueKeys (readCell st rep.replicaVariables) →
      findReplicaRecord rid svc.replicas = some rep →
      batchAddOrUpdateReplicaVariables st sname rid vs = Except.ok (svc, st') →
      countKey k (readCell st' rep.replicaVariables) = 1 ∧
      findVar k (readCell st' rep.replicaVariables) = findVar k vs.reverse) := by
  have main : ∀ l, uniqueKeys l →
      countKey k (upsertAll l vs) = 1 ∧
      findVar k (upsertAll l vs) = findVar k vs.reverse := by
    intro l hu
    have hfind := findVar_upsertAll_last k vs hk l
    have hsome : (findVar k (upsertAll l vs)).isSome := by
      rw [hfind]
      exact findVar_isSome_of_exists k vs.reverse
        (by rcases hk with ⟨v, hv, hkk⟩; exact ⟨v, List.mem_reverse.mpr hv, hkk⟩)
    obtain ⟨x, hx⟩ := Option.isSome_iff_exists.mp hsome
    exact ⟨countKey_eq_one k (upsertAll l vs) (uniqueKeys_upsertAll l vs hu)
      (mem_keys_of_findVar k (upsertAll l vs) x hx), hfind⟩
  constructor
  · intro svc st' hu h
    cases hf : findService st sname with
    | error e =>
      have heq : batchAddOrUpdateServiceVariables st sname vs = Except.error e := by
        simp only [batchAddOrUpdateServiceVariables, hf]
      rw [heq] at h
      cases h
    | ok svc0 =>
      have heq : batchAddOrUpdateServiceVariables st sname vs =
          Except.ok (svc0, writeCell st svc0.globalVariables
            (upsertAll (readCell st svc0.globalVariables) vs)) := by
        simp only [batchAddOrUpdateServiceVariables, hf]
      rw [heq] at h
      simp only [Except.ok.injEq, Prod.mk.injEq] at h
      obtain ⟨h1, h2⟩ := h
      subst h1
      subst h2
      have hmem : svc0 ∈ st.services := by
        unfold findService repoFindByName at hf
        cases hh : findServiceRecord sname st.services with
        | none => rw [hh] at hf; cases hf
        | some s =>
          rw [hh] at hf
          cases hf
          exact findServiceRecord_mem sname st.services _ hh
      have hlen := (hwf svc0 hmem).1
      have hread : readCell (writeCell st svc0.globalVariables
          (upsertAll (readCell st svc0.globalVariables) vs)) svc0.globalVariables =
          upsertAll (readCell st svc0.globalVariables) vs :=
        heapGet_heapSet_self st.cells svc0.globalVariables _ hlen
      rw [hread]
      exact main (readCell st svc0.globalVariables) hu
  · intro svc rep st' hu hrep h
    cases hf : findService st sname with
    | error e =>
      have heq : batchAddOrUpdateReplicaVariables st sname rid vs = Except.error e := by
        simp only [batchAddOrUpdateReplicaVariables, hf]
      rw [heq] at h
      cases h
    | ok svc0 =>
      cases hr : findReplicaRecord rid svc0.replicas with
      | none =>
        have heq : batchAddOrUpdateReplicaVariables st sname rid vs =
            Except.error ConfigError.notFound := by
          simp only [batchAddOrUpdateReplicaVariables, hf, hr]
        rw [heq] at h
        cases h
      | some rep0 =>
        have heq : batchAddOrUpdateReplicaVariables st sname rid vs =
            Except.ok (svc0, writeCell st rep0.replicaVariables
              (upsertAll (readCell st rep0.replicaVariables) vs)) := by
          simp only [batchAddOrUpdateReplicaVariables, hf, hr]
        rw [heq] at h
        simp only [Except.ok.injEq, Prod.mk.injEq] at h
        obtain ⟨h1, h2⟩ := h
        subst h1
        subst h2
        rw [hrep] at hr
        cases hr
        have hmem : svc0 ∈ st.services := by
          unfold findService repoFindByName at hf
          cases hh : findServiceRecord sname st.services with
          | none => rw [hh] at hf; cases hf
          | some s =>
            rw [hh] at hf
            cases hf
            exact findServiceRecord_mem sname st.services _ hh
        have hrepmem : rep ∈ svc0.replicas := findReplicaRecord_mem rid svc0.replicas rep hrep
        have hlen := (hwf svc0 hmem).2 rep hrepmem
        have hread : readCell (writeCell st rep.replicaVariables
            (upsertAll (readCell st rep.replicaVariables) vs)) rep.replicaVariables =
            upsertAll (readCell st rep.replicaVariables) vs :=
          heapGet_heapSet_self st.cells rep.replicaVariables _ hlen
        rw [hread]
        exact main (readCell st rep.replicaVariables) hu

/-- Witness for C10 at st1 with the batch holding timeoutMs twice (700
then 900): one entry remains and it is the 900 one. -/
theorem batch_duplicate_keys_last_wins_witness :
    countKey "timeoutMs" (readCell stTm900 svcSt1.globalVariables) = 1 ∧
    findVar "timeoutMs" (readCell stTm900 svcSt1.globalVariables) =
      findVar "timeoutMs" [vTm700, vTm900].reverse :=
  (batch_duplicate_keys_last_wins st1 "orders" "r0" "timeoutMs" [vTm700, vTm900]
    (by decide) ⟨vTm700, by decide, by decide⟩).1 svcSt1 stTm900 (by decide) (by decide)
